import Mathlib

/-!
Drift Miner backend: score submission and leaderboard.

A shallow embedding of `src/GoLang/firestore.go` (the `db` package: `ScoreEntry`,
`Repository.AddScore`, `Repository.GetLeaderboard`) and of `src/GoLang/main2.go`
(`handleSubmitScore`), followed by theorems about them.

Two libraries the repository calls are not part of it.  The part of their behaviour that
the repository relies on is modelled in the namespaces `Firestore` (documents as field
maps, `DataTo`, `Collection.Add`, `OrderBy(..., Desc).Limit(n).Documents`) and `JSON`
(`Decoder.Decode` into a `ScoreEntry`); every choice the backend makes on its own (the
generated document ID, an I/O failure) is an explicit argument.
-/

namespace DriftMiner

/-! ## Data model -/

/-- ScoreEntry of `firestore.go` (lines 15-22).  `Score` and `Level` are Go `int`s; no
arithmetic is performed on them, only comparisons, so they are unbounded integers here.
`Timestamp` is a point in time counted in the store's resolution from Go's zero time, so
that the zero value of `time.Time` is `0`. -/
structure ScoreEntry where
  UserID : String
  Username : String
  Score : Int
  Level : Int
  Timestamp : Int
  Platform : String
deriving DecidableEq, Repr

/-- The six struct fields of `ScoreEntry`, in declaration order. -/
inductive Field where
  | UserID
  | Username
  | Score
  | Level
  | Timestamp
  | Platform
deriving DecidableEq, Repr

/-- The name a field has in a document and in a request body: the `json:"..."` and the
`firestore:"..."` tag of each field are the same string. -/
def Field.tag : Field → String
  | .UserID => "user_id"
  | .Username => "username"
  | .Score => "score"
  | .Level => "level"
  | .Timestamp => "timestamp"
  | .Platform => "platform"

/-- The fields in declaration order. -/
def Field.all : List Field :=
  [.UserID, .Username, .Score, .Level, .Timestamp, .Platform]

/-- Case folding of one code point as both libraries apply it to keys: an ASCII letter
folds to its capital, the long s (U+017F) to `S`, the Kelvin sign (U+212A) to `K`. -/
def foldRune (c : Nat) : Nat :=
  if 97 ≤ c ∧ c ≤ 122 then c - 32
  else if c = 0x17F then 83
  else if c = 0x212A then 75
  else c

/-- Case-insensitive equality of a tag and a key. -/
def equalFold (tag key : String) : Bool :=
  tag.data.map (fun c => foldRune c.toNat) == key.data.map (fun c => foldRune c.toNat)

/-- The struct field a key addresses: the field whose tag is the key exactly, else the
first field whose tag equals the key up to case, else none (the key is ignored). -/
def matchField (key : String) : Option Field :=
  match Field.all.find? (fun f => f.tag == key) with
  | some f => some f
  | none => Field.all.find? (fun f => equalFold f.tag key)

/-- The zero value of `ScoreEntry` (`var entry ScoreEntry`). -/
def ScoreEntry.zero : ScoreEntry :=
  { UserID := "", Username := "", Score := 0, Level := 0, Timestamp := 0, Platform := "" }

/-- Whether an integer fits a 64-bit Go `int`. -/
def inInt64 (n : Int) : Bool :=
  decide (-(2 : Int) ^ 63 ≤ n) && decide (n < (2 : Int) ^ 63)

namespace Firestore

/-- Firestore field values.  A finite double is the dyadic rational `num / 2 ^ exp`.  Bytes,
references, geo points, arrays and maps are `other`: `kind` is the position of the kind
among these five, `rank` stands for the position of the value within its kind. -/
inductive Value where
  | null
  | bool (b : Bool)
  | nan
  | negInf
  | int (n : Int)
  | double (num : Int) (exp : Nat)
  | posInf
  | time (t : Int)
  | str (s : String)
  | other (kind : Nat) (rank : Nat)
deriving DecidableEq, Repr

/-- A stored document: its ID and its fields by name, in the order in which the client
visits them (the first binding of a name counts). -/
structure DocumentSnapshot where
  ID : String
  fields : List (String × Value)
deriving DecidableEq, Repr

/-- Lexicographic comparison of code point sequences. -/
def lexLE : List Nat → List Nat → Bool
  | [], _ => true
  | _ :: _, [] => false
  | a :: as, b :: bs => decide (a < b) || (decide (a = b) && lexLE as bs)

/-- Firestore orders strings (and document IDs) lexicographically by code point. -/
def strLE (s t : String) : Bool :=
  lexLE (s.data.map Char.toNat) (t.data.map Char.toNat)

/-- Position of a value in Firestore's cross-type ordering: null, booleans, NaN, numbers
(integers and doubles together, the infinities at the two ends), timestamps, strings,
then the other kinds. -/
def Value.typeOrder : Value → Nat
  | .null => 0
  | .bool _ => 1
  | .nan => 2
  | .negInf => 3
  | .int _ => 4
  | .double _ _ => 4
  | .posInf => 5
  | .time _ => 6
  | .str _ => 7
  | .other kind _ => 8 + kind

/-- Numerator of the number by which values of one kind are compared. -/
def Value.num : Value → Int
  | .bool b => if b then 1 else 0
  | .int n => n
  | .double num _ => num
  | .time t => t
  | .other _ rank => rank
  | _ => 0

/-- Exponent of the power of two under that numerator. -/
def Value.exp : Value → Nat
  | .double _ exp => exp
  | _ => 0

/-- Code points by which strings are compared. -/
def Value.text : Value → List Nat
  | .str s => s.data.map Char.toNat
  | _ => []

/-- Firestore's ascending order on values: by kind first, within a kind by number, and
strings by code points. -/
def Value.le (a b : Value) : Bool :=
  decide (a.typeOrder < b.typeOrder) ||
  (decide (a.typeOrder = b.typeOrder) &&
    (decide (a.num * 2 ^ b.exp < b.num * 2 ^ a.exp) ||
      (decide (a.num * 2 ^ b.exp = b.num * 2 ^ a.exp) && lexLE a.text b.text)))

/-- The value `DataTo` uses for a struct field: the value under the field's exact name if
the document has one, else the value under the first key that addresses the field up to
case, else none. -/
def matched (d : DocumentSnapshot) (f : Field) : Option Value :=
  match d.fields.lookup f.tag with
  | some v => some v
  | none => (d.fields.find? (fun kv => matchField kv.1 == some f)).map Prod.snd

/-- A string-typed struct field read from a document: a missing or null field leaves the
zero value, a value of another kind is a mapping error (`none`). -/
def stringField (d : DocumentSnapshot) (f : Field) : Option String :=
  match matched d f with
  | none => some ""
  | some .null => some ""
  | some (.str s) => some s
  | some _ => none

/-- An int-typed struct field read from a document: an integer, or a double that holds an
integer of the 64-bit range; missing or null leaves 0. -/
def intField (d : DocumentSnapshot) (f : Field) : Option Int :=
  match matched d f with
  | none => some 0
  | some .null => some 0
  | some (.int n) => some n
  | some (.double num exp) =>
      if num % 2 ^ exp = 0 ∧ inInt64 (num / 2 ^ exp) = true then some (num / 2 ^ exp) else none
  | some _ => none

/-- A time-typed struct field read from a document. -/
def timeField (d : DocumentSnapshot) (f : Field) : Option Int :=
  match matched d f with
  | none => some 0
  | some .null => some 0
  | some (.time t) => some t
  | some _ => none

/-- Model of `DocumentSnapshot.DataTo(&entry)` for a zero `ScoreEntry`: `none` stands for a
non-nil error. -/
def DocumentSnapshot.DataTo (d : DocumentSnapshot) : Option ScoreEntry :=
  match stringField d .UserID, stringField d .Username, intField d .Score,
        intField d .Level, timeField d .Timestamp, stringField d .Platform with
  | some uid, some name, some score, some level, some ts, some platform =>
      some { UserID := uid, Username := name, Score := score, Level := level,
             Timestamp := ts, Platform := platform }
  | _, _, _, _, _, _ => none

/-- The fields Firestore writes for a `ScoreEntry`, named by its `firestore:"..."` tags. -/
def entryFields (e : ScoreEntry) : List (String × Value) :=
  [("user_id", .str e.UserID), ("username", .str e.Username), ("score", .int e.Score),
   ("level", .int e.Level), ("timestamp", .time e.Timestamp), ("platform", .str e.Platform)]

/-- The ordering key of a document in a query ordered by `field`: only documents that
have the field (under this exact name) take part in such a query. -/
def orderKey (field : String) (d : DocumentSnapshot) : Option (Value × DocumentSnapshot) :=
  (d.fields.lookup field).map (fun v => (v, d))

/-- Listing order of `OrderBy(field, Desc)`: higher value first; between equal values the
document ID decides, in the same (descending) direction. -/
def descBefore (x y : Value × DocumentSnapshot) : Bool :=
  !(x.1.le y.1) || (y.1.le x.1 && strLE y.2.ID x.2.ID)

/-- The documents selected by `Collection(c).OrderBy(field, Desc).Limit(limit)`. -/
def orderByDescLimit (docs : List DocumentSnapshot) (field : String) (limit : Nat) :
    List DocumentSnapshot :=
  (((docs.filterMap (orderKey field)).insertionSort (fun x y => descBefore x y = true)).map
    Prod.snd).take limit

/-- A document iterator: the documents that `Next` still has to yield, and how the
iteration ends after them, with `iterator.Done` (`none`) or with another error. -/
structure DocumentIterator where
  pending : List DocumentSnapshot
  failure : Option String
deriving Repr

/-- Model of `Query.Documents(ctx)`: the iterator yields the selected documents in order.
A backend fault `(k, err)` makes the call to `Next` that follows the first `k` documents
fail with `err`. -/
def Documents (selected : List DocumentSnapshot) (fault : Option (Nat × String)) :
    DocumentIterator :=
  match fault with
  | none => { pending := selected, failure := none }
  | some (k, err) => { pending := selected.take k, failure := some err }

end Firestore

namespace JSON

/-- The value of a member of a JSON object.  A number literal without fraction and exponent
is `int`, any other number literal is `frac`; the content of a nested array or object is
not represented. -/
inductive Value where
  | null
  | bool (b : Bool)
  | int (n : Int)
  | frac
  | str (s : String)
  | array
  | object
deriving DecidableEq, Repr

/-- A request body as the JSON decoder reads it: text that is not well-formed JSON, the
text `null`, an object with its members in order, or another well-formed value (a boolean,
a number, a string or an array). -/
inductive Body where
  | invalid
  | null
  | object (members : List (String × Value))
  | other
deriving DecidableEq, Repr

/-- Whether the body is well-formed JSON. -/
def Body.wellFormed : Body → Bool
  | .invalid => false
  | _ => true

/-- One member of the object stored into the entry.  A key that addresses no field is
ignored; `null` has no effect; a string goes to a string field, an integer literal of
the 64-bit range to an int field, a string that `parseTime` accepts (RFC 3339) to the time
field; anything else is an error (`none`). -/
def setMember (parseTime : String → Option Int) (entry : ScoreEntry) (key : String)
    (v : Value) : Option ScoreEntry :=
  match matchField key with
  | none => some entry
  | some f =>
    match f, v with
    | _, .null => some entry
    | .UserID, .str s => some { entry with UserID := s }
    | .Username, .str s => some { entry with Username := s }
    | .Platform, .str s => some { entry with Platform := s }
    | .Score, .int n => if inInt64 n = true then some { entry with Score := n } else none
    | .Level, .int n => if inInt64 n = true then some { entry with Level := n } else none
    | .Timestamp, .str s => (parseTime s).map (fun t => { entry with Timestamp := t })
    | _, _ => none

/-- The members of an object stored one after the other, a later member overriding an
earlier one for the same field. -/
def setMembers (parseTime : String → Option Int) :
    ScoreEntry → List (String × Value) → Option ScoreEntry
  | entry, [] => some entry
  | entry, (key, v) :: rest =>
      match setMember parseTime entry key v with
      | none => none
      | some entry' => setMembers parseTime entry' rest

/-- Model of `json.NewDecoder(r.Body).Decode(&entry)` for a zero `entry`: the entry when
the error is nil, `none` when it is not.  `parseTime` is the RFC 3339 parser of
`time.Time`. -/
def Decode (parseTime : String → Option Int) : Body → Option ScoreEntry
  | .invalid => none
  | .null => some ScoreEntry.zero
  | .object members => setMembers parseTime ScoreEntry.zero members
  | .other => none

end JSON

open Firestore

/-! ## `firestore.go` -/

/-- Repository of `firestore.go`: the client, seen as the documents of collection "scores". -/
structure Repository where
  scores : List DocumentSnapshot
deriving DecidableEq, Repr

/-- Repository.AddScore (`firestore.go` lines 39-46).  `backend` is the outcome of
`Collection("scores").Add`: the auto-generated document ID, or the error. -/
def Repository.AddScore (r : Repository) (backend : Except String String) (entry : ScoreEntry) :
    Repository × Option String :=
  match backend with
  | .error err => (r, some ("failed to add score: " ++ err))
  | .ok id => ({ scores := r.scores ++ [{ ID := id, fields := entryFields entry }] }, none)

/-- The `for` loop of `GetLeaderboard` (`firestore.go` lines 59-75) over the documents the
iterator still yields; `scores` is the slice built so far.  The result is the pair the
function returns: the slice (`[]` for a nil slice) and the error (`none` for nil). -/
def GetLeaderboard.loop (failure : Option String) :
    List DocumentSnapshot → List ScoreEntry → List ScoreEntry × Option String
  | [], scores =>
      match failure with
      | none => (scores, none)       -- err == iterator.Done: break; return scores, nil
      | some err => ([], some err)   -- err != nil: return nil, err
  | doc :: rest, scores =>
      match doc.DataTo with
      | none => GetLeaderboard.loop failure rest scores               -- continue
      | some entry => GetLeaderboard.loop failure rest (scores ++ [entry])

/-- Repository.GetLeaderboard (`firestore.go` lines 49-78).  `limit` is a natural number:
the handler passes 50 and the properties below concern limits of at least 1. -/
def Repository.GetLeaderboard (r : Repository) (fault : Option (Nat × String)) (limit : Nat) :
    List ScoreEntry × Option String :=
  let iter := Documents (orderByDescLimit r.scores "score" limit) fault
  GetLeaderboard.loop iter.failure iter.pending []

/-! ## `main2.go` -/

/-- The part of an HTTP request the handler reads: the method, and the outcome of
`json.NewDecoder(r.Body).Decode(&entry)` (`none` when decoding fails; `JSON.Decode` is the
model of it on a body). -/
structure Request where
  Method : String
  Decoded : Option ScoreEntry
deriving DecidableEq, Repr

/-- What the handler writes: the status code and the body. -/
structure Response where
  StatusCode : Nat
  Text : String
deriving DecidableEq, Repr

/-- The effects of one run of the handler: the response, the repository afterwards, and the
entries passed to `Repository.AddScore`, in call order. -/
structure Outcome where
  response : Response
  repo : Repository
  addScoreCalls : List ScoreEntry
deriving DecidableEq, Repr

/-- The handler returned by handleSubmitScore (`main2.go` lines 4-38).  `now` is the value
of `time.Now()`, `backend` the outcome of the Firestore write if one is attempted. -/
def handleSubmitScore (repo : Repository) (now : Int) (backend : Except String String)
    (r : Request) : Outcome :=
  if r.Method ≠ "POST" then
    { response := ⟨405, "Method not allowed\n"⟩, repo := repo, addScoreCalls := [] }
  else
    match r.Decoded with
    | none => { response := ⟨400, "Invalid JSON\n"⟩, repo := repo, addScoreCalls := [] }
    | some entry =>
      if entry.Score < 0 ∨ entry.Username = "" then
        { response := ⟨400, "Invalid data\n"⟩, repo := repo, addScoreCalls := [] }
      else
        let entry := { entry with Timestamp := now }
        match repo.AddScore backend entry with
        | (repo', some _) =>
            { response := ⟨500, "Internal Server Error\n"⟩, repo := repo',
              addScoreCalls := [entry] }
        | (repo', none) =>
            { response := ⟨201, "Score Submitted Successfully"⟩, repo := repo',
              addScoreCalls := [entry] }


/-! ## Sample data -/

/-- The submission of the end-to-end scenario; `user_id` and `timestamp` as a client
could send them. -/
def ada : ScoreEntry :=
  { UserID := "u-ada", Username := "Ada", Score := 120, Level := 3, Timestamp := 7,
    Platform := "android" }

/-- A stored record of another player with the same score as `ada`. -/
def bob : ScoreEntry :=
  { UserID := "u-bob", Username := "Bob", Score := 120, Level := 2, Timestamp := 40,
    Platform := "ios" }

/-- A stored record with a lower score. -/
def cyd : ScoreEntry :=
  { UserID := "u-cyd", Username := "Cyd", Score := 90, Level := 1, Timestamp := 55,
    Platform := "android" }

/-- A malformed document: it has the highest score, but its username is a number. -/
def malformedDoc : DocumentSnapshot :=
  { ID := "m1", fields := [("user_id", .str "u-mal"), ("username", .int 5), ("score", .int 999)] }

/-- A store with two valid records and one malformed record. -/
def mixedStore : Repository :=
  { scores := [{ ID := "c1", fields := entryFields cyd }, malformedDoc,
               { ID := "zz", fields := entryFields bob }] }

/-- A store that holds only the record of `bob`, under the document ID "zz". -/
def bobStore : Repository :=
  { scores := [{ ID := "zz", fields := entryFields bob }] }

/-- A store that holds only the record of `cyd`. -/
def cydStore : Repository :=
  { scores := [{ ID := "c1", fields := entryFields cyd }] }

/-- A malformed document with a low score: its level is a string. -/
def malformedLowDoc : DocumentSnapshot :=
  { ID := "m2", fields := [("username", .str "Mal"), ("score", .int 5), ("level", .str "x")] }

/-- A store with two valid records and a malformed record that ranks below both. -/
def tailStore : Repository :=
  { scores := [malformedLowDoc, { ID := "c1", fields := entryFields cyd },
               { ID := "zz", fields := entryFields bob }] }

/-- A record with a negative score. -/
def dee : ScoreEntry :=
  { UserID := "u-dee", Username := "Dee", Score := -5, Level := 1, Timestamp := 60,
    Platform := "ios" }

/-- A document whose score field is null: it maps to an entry with score 0. -/
def nullScoreDoc : DocumentSnapshot :=
  { ID := "n1", fields := [("user_id", .str "u-eve"), ("username", .str "Eve"),
      ("score", .null), ("level", .int 1), ("timestamp", .time 70), ("platform", .str "ios")] }

/-- The entry that `nullScoreDoc` maps to. -/
def eve : ScoreEntry :=
  { UserID := "u-eve", Username := "Eve", Score := 0, Level := 1, Timestamp := 70,
    Platform := "ios" }

/-- A store with a negative score and a null score. -/
def nullStore : Repository :=
  { scores := [nullScoreDoc, { ID := "d1", fields := entryFields dee }] }

/-- A time parser that accepts nothing; the sample bodies carry no timestamp. -/
def noTime : String → Option Int :=
  fun _ => none

/-- The body `{"username":"Ada","score":9223372036854775808}`: well-formed JSON whose
score does not fit an `int`. -/
def bigScoreBody : JSON.Body :=
  .object [("username", .str "Ada"), ("score", .int (2 ^ 63))]

/-- The body `{"user_id":"u-ada","username":"Ada","score":120,"level":3,"platform":"android"}`. -/
def adaBody : JSON.Body :=
  .object [("user_id", .str "u-ada"), ("username", .str "Ada"), ("score", .int 120),
    ("level", .int 3), ("platform", .str "android")]

/-! ## The ordering used by the query -/

namespace Firestore

theorem lexLE_total : ∀ a b : List Nat, lexLE a b = true ∨ lexLE b a = true
  | [], _ => Or.inl rfl
  | _ :: _, [] => Or.inr rfl
  | a :: as, b :: bs => by
      simp only [lexLE, Bool.or_eq_true, Bool.and_eq_true, decide_eq_true_eq]
      rcases lt_trichotomy a b with h | h | h
      · exact Or.inl (Or.inl h)
      · rcases lexLE_total as bs with h' | h'
        · exact Or.inl (Or.inr ⟨h, h'⟩)
        · exact Or.inr (Or.inr ⟨h.symm, h'⟩)
      · exact Or.inr (Or.inl h)

theorem lexLE_trans : ∀ a b c : List Nat,
    lexLE a b = true → lexLE b c = true → lexLE a c = true
  | [], _, _ => fun _ _ => rfl
  | _ :: _, [], _ => fun h _ => by simp [lexLE] at h
  | _ :: _, _ :: _, [] => fun _ h => by simp [lexLE] at h
  | a :: as, b :: bs, c :: cs => by
      simp only [lexLE, Bool.or_eq_true, Bool.and_eq_true, decide_eq_true_eq]
      intro hab hbc
      rcases hab with hab | ⟨hab, habs⟩
      · rcases hbc with hbc | ⟨hbc, _⟩
        · exact Or.inl (lt_trans hab hbc)
        · exact Or.inl (hbc ▸ hab)
      · rcases hbc with hbc | ⟨hbc, hbcs⟩
        · exact Or.inl (hab ▸ hbc)
        · exact Or.inr ⟨hab.trans hbc, lexLE_trans as bs cs habs hbcs⟩

theorem strLE_total (s t : String) : strLE s t = true ∨ strLE t s = true :=
  lexLE_total _ _

theorem strLE_trans {s t u : String} (h₁ : strLE s t = true) (h₂ : strLE t u = true) :
    strLE s u = true :=
  lexLE_trans _ _ _ h₁ h₂

/-- Comparison by cross multiplication is comparison of the quotients. -/
theorem cross_lt_iff (m n : Int) (e f : Nat) :
    m * 2 ^ f < n * 2 ^ e ↔ (m : ℚ) / 2 ^ e < (n : ℚ) / 2 ^ f := by
  rw [div_lt_div_iff₀ (by positivity) (by positivity)]
  exact_mod_cast Iff.rfl

theorem cross_eq_iff (m n : Int) (e f : Nat) :
    m * 2 ^ f = n * 2 ^ e ↔ (m : ℚ) / 2 ^ e = (n : ℚ) / 2 ^ f := by
  rw [div_eq_div_iff (by positivity) (by positivity)]
  exact_mod_cast Iff.rfl

/-- The order on values spelled out: kind, then number, then text. -/
theorem Value.le_iff (a b : Value) :
    a.le b = true ↔
      a.typeOrder < b.typeOrder ∨
      (a.typeOrder = b.typeOrder ∧
        ((a.num : ℚ) / 2 ^ a.exp < (b.num : ℚ) / 2 ^ b.exp ∨
          ((a.num : ℚ) / 2 ^ a.exp = (b.num : ℚ) / 2 ^ b.exp ∧
            lexLE a.text b.text = true))) := by
  simp only [Value.le, Bool.or_eq_true, Bool.and_eq_true, decide_eq_true_eq,
    cross_lt_iff, cross_eq_iff]

theorem Value.le_total (a b : Value) : a.le b = true ∨ b.le a = true := by
  rw [Value.le_iff, Value.le_iff]
  rcases lt_trichotomy a.typeOrder b.typeOrder with h | h | h
  · exact Or.inl (Or.inl h)
  · rcases lt_trichotomy ((a.num : ℚ) / 2 ^ a.exp) ((b.num : ℚ) / 2 ^ b.exp) with q | q | q
    · exact Or.inl (Or.inr ⟨h, Or.inl q⟩)
    · rcases lexLE_total a.text b.text with t | t
      · exact Or.inl (Or.inr ⟨h, Or.inr ⟨q, t⟩⟩)
      · exact Or.inr (Or.inr ⟨h.symm, Or.inr ⟨q.symm, t⟩⟩)
    · exact Or.inr (Or.inr ⟨h.symm, Or.inl q⟩)
  · exact Or.inr (Or.inl h)

theorem Value.le_trans {a b c : Value} (h₁ : a.le b = true) (h₂ : b.le c = true) :
    a.le c = true := by
  rw [Value.le_iff] at h₁ h₂ ⊢
  rcases h₁ with h₁ | ⟨k₁, h₁⟩
  · rcases h₂ with h₂ | ⟨k₂, _⟩
    · exact Or.inl (lt_trans h₁ h₂)
    · exact Or.inl (k₂ ▸ h₁)
  · rcases h₂ with h₂ | ⟨k₂, h₂⟩
    · exact Or.inl (k₁ ▸ h₂)
    · refine Or.inr ⟨k₁.trans k₂, ?_⟩
      rcases h₁ with q₁ | ⟨q₁, t₁⟩
      · rcases h₂ with q₂ | ⟨q₂, _⟩
        · exact Or.inl (lt_trans q₁ q₂)
        · exact Or.inl (q₂ ▸ q₁)
      · rcases h₂ with q₂ | ⟨q₂, t₂⟩
        · exact Or.inl (q₁ ▸ q₂)
        · exact Or.inr ⟨q₁.trans q₂, lexLE_trans _ _ _ t₁ t₂⟩

theorem descBefore_total (x y : Value × DocumentSnapshot) :
    descBefore x y = true ∨ descBefore y x = true := by
  simp only [descBefore, Bool.or_eq_true, Bool.and_eq_true, Bool.not_eq_true']
  cases hxy : x.1.le y.1
  · exact Or.inl (Or.inl rfl)
  · cases hyx : y.1.le x.1
    · exact Or.inr (Or.inl rfl)
    · rcases strLE_total y.2.ID x.2.ID with h | h
      · exact Or.inl (Or.inr ⟨rfl, h⟩)
      · exact Or.inr (Or.inr ⟨rfl, h⟩)

/-- A document listed no later than another holds a value at least as high. -/
theorem le_of_descBefore {x y : Value × DocumentSnapshot} (h : descBefore x y = true) :
    y.1.le x.1 = true := by
  simp only [descBefore, Bool.or_eq_true, Bool.and_eq_true, Bool.not_eq_true'] at h
  rcases h with h | h
  · rcases Value.le_total x.1 y.1 with h' | h'
    · rw [h] at h'; cases h'
    · exact h'
  · exact h.1

theorem descBefore_trans {x y z : Value × DocumentSnapshot}
    (hxy : descBefore x y = true) (hyz : descBefore y z = true) : descBefore x z = true := by
  have hyx := le_of_descBefore hxy
  have hzy := le_of_descBefore hyz
  simp only [descBefore, Bool.or_eq_true, Bool.and_eq_true, Bool.not_eq_true'] at *
  cases hxz : x.1.le z.1
  · exact Or.inl rfl
  · right
    have hIyx : strLE y.2.ID x.2.ID = true := by
      rcases hxy with h | h
      · rw [Value.le_trans hxz hzy] at h; cases h
      · exact h.2
    have hIzy : strLE z.2.ID y.2.ID = true := by
      rcases hyz with h | h
      · rw [Value.le_trans hyx hxz] at h; cases h
      · exact h.2
    exact ⟨Value.le_trans hzy hyx, strLE_trans hIzy hIyx⟩

instance descBefore_isTotal :
    IsTotal (Value × DocumentSnapshot) (fun x y => descBefore x y = true) :=
  ⟨descBefore_total⟩

instance descBefore_isTrans :
    IsTrans (Value × DocumentSnapshot) (fun x y => descBefore x y = true) :=
  ⟨fun _ _ _ => descBefore_trans⟩

/-- Writing an entry and mapping the document back gives the entry. -/
theorem DataTo_entryFields (id : String) (e : ScoreEntry) :
    DocumentSnapshot.DataTo { ID := id, fields := entryFields e } = some e := rfl

/-- A document that maps to an entry and has a "score" field that is not null holds there
a number equal to the entry's score. -/
theorem DataTo_score {d : DocumentSnapshot} {e : ScoreEntry} {v : Value}
    (hd : d.DataTo = some e) (hv : d.fields.lookup "score" = some v) (hnull : v ≠ .null) :
    v.typeOrder = 4 ∧ v.num = e.Score * 2 ^ v.exp ∧ v.text = [] := by
  have hm : matched d .Score = some v := by
    unfold matched
    show (match d.fields.lookup "score" with
      | some v => some v
      | none => (d.fields.find? (fun kv => matchField kv.1 == some Field.Score)).map Prod.snd)
      = some v
    rw [hv]
  unfold DocumentSnapshot.DataTo at hd
  split at hd
  · next _ _ score _ _ _ _ _ hs _ _ _ =>
    simp only [Option.some.injEq] at hd
    subst hd
    unfold intField at hs
    rw [hm] at hs
    cases v with
    | null => exact absurd rfl hnull
    | int n =>
      simp only [Option.some.injEq] at hs
      subst hs
      simp [Value.typeOrder, Value.num, Value.exp, Value.text]
    | double num exp =>
      simp only at hs
      split at hs
      · next hc =>
        simp only [Option.some.injEq] at hs
        subst hs
        refine ⟨rfl, ?_, rfl⟩
        show num = num / 2 ^ exp * 2 ^ exp
        exact (Int.ediv_mul_cancel (Int.dvd_of_emod_eq_zero hc.1)).symm
      · cases hs
    | _ => simp at hs
  · cases hd

/-- The scores of two mapped documents compare as the documents are listed. -/
theorem score_le_of_descBefore {x y : Value × DocumentSnapshot} {e₁ e₂ : ScoreEntry}
    (h : descBefore x y = true)
    (hx : x.1.typeOrder = 4 ∧ x.1.num = e₁.Score * 2 ^ x.1.exp ∧ x.1.text = [])
    (hy : y.1.typeOrder = 4 ∧ y.1.num = e₂.Score * 2 ^ y.1.exp ∧ y.1.text = []) :
    e₂.Score ≤ e₁.Score := by
  have hle := le_of_descBefore h
  simp only [Value.le, hx.1, hy.1, hx.2.1, hy.2.1, Bool.or_eq_true, Bool.and_eq_true,
    decide_eq_true_eq, lt_self_iff_false, false_or, true_and] at hle
  have hpos : (0 : Int) < 2 ^ x.1.exp * 2 ^ y.1.exp := by positivity
  have hle' : e₂.Score * (2 ^ x.1.exp * 2 ^ y.1.exp) ≤ e₁.Score * (2 ^ x.1.exp * 2 ^ y.1.exp) := by
    rcases hle with h | ⟨h, _⟩
    · nlinarith [h]
    · nlinarith [h]
  exact le_of_mul_le_mul_right hle' hpos

/-! ## The query and the iteration -/

/-- The ranked documents before the limit is applied, with their ordering keys. -/
theorem mem_sorted_keys {docs : List DocumentSnapshot} {field : String}
    {x : Value × DocumentSnapshot}
    (hx : x ∈ (docs.filterMap (orderKey field)).insertionSort (fun x y => descBefore x y = true)) :
    x.2 ∈ docs ∧ x.2.fields.lookup field = some x.1 := by
  have hx' := (List.perm_insertionSort _ _).subset hx
  rw [List.mem_filterMap] at hx'
  obtain ⟨d, hd, hk⟩ := hx'
  unfold orderKey at hk
  cases hl : d.fields.lookup field with
  | none => rw [hl] at hk; cases hk
  | some v =>
    rw [hl] at hk
    simp only [Option.map_some', Option.some.injEq] at hk
    subst hk
    exact ⟨hd, hl⟩

theorem orderByDescLimit_length_le (docs : List DocumentSnapshot) (field : String) (limit : Nat) :
    (orderByDescLimit docs field limit).length ≤ limit := by
  unfold orderByDescLimit
  exact List.length_take_le _ _

theorem orderByDescLimit_length (docs : List DocumentSnapshot) (field : String) (limit : Nat) :
    (orderByDescLimit docs field limit).length
      = min limit (docs.filterMap (orderKey field)).length := by
  unfold orderByDescLimit
  rw [List.length_take, List.length_map, List.length_insertionSort]

theorem orderByDescLimit_subset {docs : List DocumentSnapshot} {field : String} {limit : Nat}
    {d : DocumentSnapshot} (hd : d ∈ orderByDescLimit docs field limit) : d ∈ docs := by
  unfold orderByDescLimit at hd
  have hd' := List.mem_of_mem_take hd
  rw [List.mem_map] at hd'
  obtain ⟨x, hx, rfl⟩ := hd'
  exact (mem_sorted_keys hx).1

/-- Among the selected documents of a store without null scores, an earlier one that maps
to an entry has a score at least that of a later one that maps to an entry. -/
theorem orderByDescLimit_pairwise (docs : List DocumentSnapshot) (limit : Nat)
    (hnull : ∀ d ∈ docs, d.fields.lookup "score" ≠ some .null) :
    (orderByDescLimit docs "score" limit).Pairwise
      (fun d₁ d₂ => ∀ e₁ e₂, d₁.DataTo = some e₁ → d₂.DataTo = some e₂ → e₂.Score ≤ e₁.Score) := by
  unfold orderByDescLimit
  refine List.Pairwise.sublist (List.take_sublist _ _) ?_
  rw [List.pairwise_map]
  have hs := List.sorted_insertionSort (fun x y => descBefore x y = true)
    (docs.filterMap (orderKey "score"))
  refine List.Pairwise.imp_of_mem ?_ hs
  intro x y hx hy hxy e₁ e₂ h₁ h₂
  have mx := mem_sorted_keys hx
  have my := mem_sorted_keys hy
  have kx := DataTo_score h₁ mx.2 (fun h => hnull x.2 mx.1 (by rw [mx.2, h]))
  have ky := DataTo_score h₂ my.2 (fun h => hnull y.2 my.1 (by rw [my.2, h]))
  exact score_le_of_descBefore hxy kx ky

end Firestore

theorem GetLeaderboard.loop_done (docs : List DocumentSnapshot) (scores : List ScoreEntry) :
    GetLeaderboard.loop none docs scores
      = (scores ++ docs.filterMap DocumentSnapshot.DataTo, none) := by
  induction docs generalizing scores with
  | nil => simp [GetLeaderboard.loop]
  | cons d rest ih =>
    cases hd : d.DataTo with
    | none => simp [GetLeaderboard.loop, hd, ih, List.filterMap_cons]
    | some e => simp [GetLeaderboard.loop, hd, ih, List.filterMap_cons]

theorem GetLeaderboard.loop_failure (err : String) (docs : List DocumentSnapshot)
    (scores : List ScoreEntry) :
    GetLeaderboard.loop (some err) docs scores = ([], some err) := by
  induction docs generalizing scores with
  | nil => simp [GetLeaderboard.loop]
  | cons d rest ih =>
    cases hd : d.DataTo with
    | none => simp [GetLeaderboard.loop, hd, ih]
    | some e => simp [GetLeaderboard.loop, hd, ih]

theorem GetLeaderboard_done (r : Repository) (limit : Nat) :
    r.GetLeaderboard none limit
      = ((orderByDescLimit r.scores "score" limit).filterMap DocumentSnapshot.DataTo, none) := by
  simp [Repository.GetLeaderboard, Documents, GetLeaderboard.loop_done]

theorem GetLeaderboard_failure (r : Repository) (k : Nat) (err : String) (limit : Nat) :
    r.GetLeaderboard (some (k, err)) limit = ([], some err) := by
  simp [Repository.GetLeaderboard, Documents, GetLeaderboard.loop_failure]

theorem length_filterMap_of_forall_ne_none {α β : Type} (f : α → Option β) :
    ∀ l : List α, (∀ x ∈ l, f x ≠ none) → (l.filterMap f).length = l.length
  | [], _ => rfl
  | x :: l, h => by
      cases hx : f x with
      | none => exact absurd hx (h x (List.mem_cons_self _ _))
      | some b =>
        rw [List.filterMap_cons_some hx, List.length_cons, List.length_cons,
          length_filterMap_of_forall_ne_none f l (fun y hy => h y (List.mem_cons_of_mem _ hy))]

theorem length_filterMap_lt_of_exists_none {α β : Type} (f : α → Option β) :
    ∀ l : List α, (∃ x ∈ l, f x = none) → (l.filterMap f).length < l.length
  | [], h => by
      obtain ⟨x, hx, _⟩ := h
      cases hx
  | x :: l, h => by
      cases hx : f x with
      | none =>
        rw [List.filterMap_cons_none hx, List.length_cons]
        exact Nat.lt_succ_of_le (List.length_filterMap_le f l)
      | some b =>
        rw [List.filterMap_cons_some hx, List.length_cons, List.length_cons]
        obtain ⟨y, hy, hfy⟩ := h
        rcases List.mem_cons.mp hy with rfl | hy'
        · rw [hx] at hfy; cases hfy
        · exact Nat.succ_lt_succ (length_filterMap_lt_of_exists_none f l ⟨y, hy', hfy⟩)

/-! ## Leaderboard queries -/

/-- C4, counterexample: a store holds a record with score -5 and a document whose score
field is null.  The query for two entries succeeds; the null score ranks below every
number and maps to score 0, so the result lists score -5 before score 0. -/
theorem GetLeaderboard_sorted_counterexample :
    1 ≤ 2 ∧ nullStore.GetLeaderboard none 2 = ([dee, eve], none) ∧
    (∀ e ∈ (nullStore.GetLeaderboard none 2).1, ∃ d ∈ nullStore.scores, d.DataTo = some e) ∧
    dee.Score < eve.Score ∧
    ¬ (nullStore.GetLeaderboard none 2).1.Chain' (fun a b => b.Score ≤ a.Score) := by
  have h : nullStore.GetLeaderboard none 2 = ([dee, eve], none) := by decide
  refine ⟨by decide, h, ?_, by decide, ?_⟩
  · intro e he
    have he' : e = dee ∨ e = eve := by
      rw [h] at he
      simpa using he
    rcases he' with rfl | rfl
    · exact ⟨{ ID := "d1", fields := entryFields dee }, by decide, by decide⟩
    · exact ⟨nullScoreDoc, by decide, by decide⟩
  · rw [h]
    intro hc
    exact absurd (List.chain'_cons.mp hc).1 (by decide)

/-- C4, amended: for every store content and every limit N ≥ 1, a successful
`Repository.GetLeaderboard(ctx, N)` returns at most N entries and every returned entry is
the mapping of a document of the store; when no document of the store has a null score
field, the scores are in non-increasing order (each entry's score is at least that of
every later entry, in particular of the next one). -/
theorem GetLeaderboard_sorted_bounded (r : Repository) (fault : Option (Nat × String))
    (N : Nat) (_hN : 1 ≤ N) (hok : (r.GetLeaderboard fault N).2 = none) :
    (r.GetLeaderboard fault N).1.length ≤ N ∧
    (∀ e ∈ (r.GetLeaderboard fault N).1, ∃ d ∈ r.scores, d.DataTo = some e) ∧
    ((∀ d ∈ r.scores, d.fields.lookup "score" ≠ some .null) →
      (r.GetLeaderboard fault N).1.Pairwise (fun a b => b.Score ≤ a.Score) ∧
      (r.GetLeaderboard fault N).1.Chain' (fun a b => b.Score ≤ a.Score)) := by
  cases fault with
  | some f =>
    obtain ⟨k, err⟩ := f
    rw [GetLeaderboard_failure] at hok
    cases hok
  | none =>
    rw [GetLeaderboard_done]
    refine ⟨?_, ?_, ?_⟩
    · exact le_trans (List.length_filterMap_le _ _) (orderByDescLimit_length_le _ _ _)
    · intro e he
      rw [List.mem_filterMap] at he
      obtain ⟨d, hd, hde⟩ := he
      exact ⟨d, orderByDescLimit_subset hd, hde⟩
    · intro hnull
      have hp : ((orderByDescLimit r.scores "score" N).filterMap
          DocumentSnapshot.DataTo).Pairwise (fun a b => b.Score ≤ a.Score) :=
        List.Pairwise.filterMap _ (fun d₁ d₂ h e₁ h₁ e₂ h₂ => h e₁ e₂ h₁ h₂)
          (orderByDescLimit_pairwise r.scores N hnull)
      exact ⟨hp, hp.chain'⟩

/-- Witness of C4 (amended): a store without null scores; the query returns the two valid
records, the higher score first, and skips the malformed one. -/
theorem GetLeaderboard_sorted_bounded_witness :
    1 ≤ 3 ∧ tailStore.GetLeaderboard none 3 = ([bob, cyd], none) ∧
    (∀ d ∈ tailStore.scores, d.fields.lookup "score" ≠ some .null) ∧
    (tailStore.GetLeaderboard none 3).1.length ≤ 3 ∧
    (tailStore.GetLeaderboard none 3).1.Pairwise (fun a b => b.Score ≤ a.Score) :=
  ⟨by decide, by decide, by decide,
   (GetLeaderboard_sorted_bounded tailStore none 3 (by decide) (by decide)).1,
   ((GetLeaderboard_sorted_bounded tailStore none 3 (by decide) (by decide)).2.2
      (by decide)).1⟩

/-- C6: when records of the store fail to map to a `ScoreEntry`, `GetLeaderboard` (whose
iterator does not fail) still returns a nil error, and its result is exactly the entries of
the documents it iterated that do map, in the order of iteration: each malformed document
is skipped, nothing else is dropped or reordered.  The same holds of the loop over any
sequence of documents. -/
theorem GetLeaderboard_skips_malformed (r : Repository) (limit : Nat)
    (_hbad : ∃ d ∈ r.scores, d.DataTo = none) :
    r.GetLeaderboard none limit
      = ((orderByDescLimit r.scores "score" limit).filterMap DocumentSnapshot.DataTo, none) ∧
    ∀ docs : List DocumentSnapshot,
      GetLeaderboard.loop none docs [] = (docs.filterMap DocumentSnapshot.DataTo, none) := by
  refine ⟨GetLeaderboard_done r limit, fun docs => ?_⟩
  rw [GetLeaderboard.loop_done, List.nil_append]

/-- Witness of C6: the store with a malformed record, all three documents iterated. -/
theorem GetLeaderboard_skips_malformed_witness :
    (∃ d ∈ mixedStore.scores, d.DataTo = none) ∧
    mixedStore.GetLeaderboard none 3 = ([bob, cyd], none) :=
  ⟨⟨malformedDoc, by decide, by decide⟩,
   (GetLeaderboard_skips_malformed mixedStore 3 ⟨malformedDoc, by decide, by decide⟩).1.trans
     (by decide)⟩

/-- C10: `GetLeaderboard` returns a non-nil error exactly when the iterator yields an error
other than `iterator.Done`; then the returned list is nil and the error is the iterator's,
unchanged; when the iterator ends with `iterator.Done` the error is nil whatever documents,
malformed or not, were iterated.  Stated for the function and for its loop over any
documents and any entries collected so far. -/
theorem GetLeaderboard_error_iff (r : Repository) (fault : Option (Nat × String))
    (limit : Nat) :
    ((r.GetLeaderboard fault limit).2 ≠ none ↔ fault ≠ none) ∧
    (∀ k err, fault = some (k, err) → r.GetLeaderboard fault limit = ([], some err)) ∧
    (∀ (failure : Option String) (docs : List DocumentSnapshot) (scores : List ScoreEntry),
      (GetLeaderboard.loop failure docs scores).2 = failure ∧
      (∀ err, failure = some err → GetLeaderboard.loop failure docs scores = ([], some err))) := by
  refine ⟨?_, ?_, ?_⟩
  · cases fault with
    | none => simp [GetLeaderboard_done]
    | some f => obtain ⟨k, err⟩ := f; simp [GetLeaderboard_failure]
  · rintro k err rfl
    exact GetLeaderboard_failure r k err limit
  · intro failure docs scores
    cases failure with
    | none => simp [GetLeaderboard.loop_done]
    | some err => simp [GetLeaderboard.loop_failure]

/-- C5, counterexample: the store holds two valid records, the query for two entries
succeeds, and it returns one entry: the malformed document ranks first, takes one of the
two places of the limit and is skipped. -/
theorem GetLeaderboard_exact_counterexample :
    mixedStore.scores.filterMap DocumentSnapshot.DataTo = [cyd, bob] ∧
    mixedStore.GetLeaderboard none 2 = ([bob], none) ∧
    ¬ ((mixedStore.GetLeaderboard none 2).1.length = 2) := by
  decide

/-- C5, amended: `GetLeaderboard(ctx, limit)` cuts the ranking at `limit` documents first
and skips malformed documents afterwards.  A successful call returns the entries of the
`limit` highest-ranked documents (documents with a score field, by score descending) that
map to an entry.  So it returns exactly `limit` entries when the store holds at least
`limit` documents with a score field and none of the `limit` highest-ranked is malformed,
also when other stored records are malformed; and it returns fewer than `limit` entries
whenever a malformed document is among the `limit` highest-ranked, however many valid
records the store holds. -/
theorem GetLeaderboard_exact_length (r : Repository) (fault : Option (Nat × String))
    (limit : Nat) (hok : (r.GetLeaderboard fault limit).2 = none) :
    (r.GetLeaderboard fault limit).1
      = (orderByDescLimit r.scores "score" limit).filterMap DocumentSnapshot.DataTo ∧
    (limit ≤ (r.scores.filterMap (orderKey "score")).length →
      (∀ d ∈ orderByDescLimit r.scores "score" limit, d.DataTo ≠ none) →
      (r.GetLeaderboard fault limit).1.length = limit) ∧
    ((∃ d ∈ orderByDescLimit r.scores "score" limit, d.DataTo = none) →
      (r.GetLeaderboard fault limit).1.length < limit) := by
  cases fault with
  | some f =>
    obtain ⟨k, err⟩ := f
    rw [GetLeaderboard_failure] at hok
    cases hok
  | none =>
    rw [GetLeaderboard_done]
    refine ⟨rfl, ?_, ?_⟩
    · intro hcount htop
      show ((orderByDescLimit r.scores "score" limit).filterMap DocumentSnapshot.DataTo).length
        = limit
      rw [length_filterMap_of_forall_ne_none _ _ htop, orderByDescLimit_length]
      exact Nat.min_eq_left hcount
    · intro hbad
      exact lt_of_lt_of_le (length_filterMap_lt_of_exists_none _ _ hbad)
        (orderByDescLimit_length_le _ _ _)

/-- Witness of C5 (amended): with the malformed record ranked below two valid ones the
query for two returns two entries; with the malformed record ranked first it returns
fewer than two, although the store holds two valid records. -/
theorem GetLeaderboard_exact_length_witness :
    (∃ d ∈ tailStore.scores, d.DataTo = none) ∧
    (tailStore.GetLeaderboard none 2).1.length = 2 ∧
    mixedStore.scores.filterMap DocumentSnapshot.DataTo = [cyd, bob] ∧
    (mixedStore.GetLeaderboard none 2).1.length < 2 :=
  ⟨⟨malformedLowDoc, by decide, by decide⟩,
   (GetLeaderboard_exact_length tailStore none 2 (by decide)).2.1 (by decide) (by decide),
   by decide,
   (GetLeaderboard_exact_length mixedStore none 2 (by decide)).2.2
     ⟨malformedDoc, by decide, by decide⟩⟩

/-! ## Score submission -/

/-- The handler on a POST request whose body decodes to an entry that passes validation:
the entry is stamped and written, and the status follows the outcome of the write. -/
theorem handleSubmitScore_valid (repo : Repository) (now : Int)
    (backend : Except String String) (r : Request) (entry : ScoreEntry)
    (hpost : r.Method = "POST") (hdec : r.Decoded = some entry)
    (hvalid : ¬ (entry.Score < 0 ∨ entry.Username = "")) :
    handleSubmitScore repo now backend r =
      match backend with
      | .error _ =>
          { response := ⟨500, "Internal Server Error\n"⟩, repo := repo,
            addScoreCalls := [{ entry with Timestamp := now }] }
      | .ok id =>
          { response := ⟨201, "Score Submitted Successfully"⟩,
            repo := { scores := repo.scores ++
              [{ ID := id, fields := entryFields { entry with Timestamp := now } }] },
            addScoreCalls := [{ entry with Timestamp := now }] } := by
  unfold handleSubmitScore
  simp only [hpost, hdec, hvalid, ne_eq, not_true_eq_false, if_false]
  cases backend <;> rfl

/-- C1: for every decoded submission whose score is negative or whose username is empty,
the handler rejects the request (status 400), makes no call to `Repository.AddScore`, and
leaves the store as it was, so that every later `GetLeaderboard` call returns what it
would have returned before the request. -/
theorem handleSubmitScore_rejects_invalid (repo : Repository) (now : Int)
    (backend : Except String String) (r : Request) (entry : ScoreEntry)
    (hpost : r.Method = "POST") (hdec : r.Decoded = some entry)
    (hbad : entry.Score < 0 ∨ entry.Username = "") :
    (handleSubmitScore repo now backend r).response.StatusCode = 400 ∧
    (handleSubmitScore repo now backend r).addScoreCalls = [] ∧
    (handleSubmitScore repo now backend r).repo = repo ∧
    ∀ fault limit, (handleSubmitScore repo now backend r).repo.GetLeaderboard fault limit
      = repo.GetLeaderboard fault limit := by
  simp [handleSubmitScore, hpost, hdec, hbad]

/-- Witness of C1: the submission with an empty username of the end-to-end scenario. -/
theorem handleSubmitScore_rejects_invalid_witness :
    (handleSubmitScore bobStore 1000 (.ok "aa")
        ⟨"POST", some { ada with Username := "", Score := 50 }⟩).addScoreCalls = [] ∧
    (handleSubmitScore bobStore 1000 (.ok "aa")
        ⟨"POST", some { ada with Username := "", Score := 50 }⟩).repo.GetLeaderboard none 1
      = bobStore.GetLeaderboard none 1 :=
  have h := handleSubmitScore_rejects_invalid bobStore 1000 (.ok "aa")
    ⟨"POST", some { ada with Username := "", Score := 50 }⟩
    { ada with Username := "", Score := 50 } rfl rfl (Or.inr rfl)
  ⟨h.2.1, h.2.2.2 none 1⟩

/-- C2, counterexample: a submission with an empty `UserID` passes validation and is
passed to `Repository.AddScore` and stored. -/
theorem handleSubmitScore_userID_counterexample :
    (handleSubmitScore bobStore 1000 (.ok "aa")
        ⟨"POST", some { ada with UserID := "" }⟩).addScoreCalls
      = [{ ada with UserID := "", Timestamp := 1000 }] ∧
    (handleSubmitScore bobStore 1000 (.ok "aa")
        ⟨"POST", some { ada with UserID := "" }⟩).response.StatusCode = 201 ∧
    ¬ (∀ e ∈ (handleSubmitScore bobStore 1000 (.ok "aa")
        ⟨"POST", some { ada with UserID := "" }⟩).addScoreCalls,
        e.UserID ≠ "" ∧ e.Username ≠ "" ∧ 0 ≤ e.Score) := by
  decide

/-- C2, amended: every entry the handler passes to `Repository.AddScore` has a non-empty
`Username` and a `Score` of at least 0, for every request; the `UserID` is not checked. -/
theorem handleSubmitScore_persists_valid (repo : Repository) (now : Int)
    (backend : Except String String) (r : Request) :
    ∀ e ∈ (handleSubmitScore repo now backend r).addScoreCalls,
      e.Username ≠ "" ∧ 0 ≤ e.Score := by
  intro e he
  by_cases hpost : r.Method = "POST"
  · cases hdec : r.Decoded with
    | none => simp [handleSubmitScore, hpost, hdec] at he
    | some entry =>
      by_cases hvalid : entry.Score < 0 ∨ entry.Username = ""
      · simp [handleSubmitScore, hpost, hdec, hvalid] at he
      · rw [handleSubmitScore_valid repo now backend r entry hpost hdec hvalid] at he
        have hmem : e = { entry with Timestamp := now } := by
          cases backend <;> simpa using he
        subst hmem
        simp only [not_or, not_lt] at hvalid
        exact ⟨hvalid.2, hvalid.1⟩
  · simp [handleSubmitScore, hpost] at he

/-- Witness of C2 (amended): the entry of a successful submission. -/
theorem handleSubmitScore_persists_valid_witness :
    ({ ada with Timestamp := 1000 } : ScoreEntry) ∈
      (handleSubmitScore bobStore 1000 (.ok "aa") ⟨"POST", some ada⟩).addScoreCalls ∧
    (({ ada with Timestamp := 1000 } : ScoreEntry).Username ≠ "" ∧
      0 ≤ ({ ada with Timestamp := 1000 } : ScoreEntry).Score) :=
  ⟨by decide,
   handleSubmitScore_persists_valid bobStore 1000 (.ok "aa") ⟨"POST", some ada⟩ _ (by decide)⟩

/-- C3: for every submission that passes validation, the handler calls
`Repository.AddScore` once, with the entry that has the server time `now` as its
`Timestamp`, whatever the client sent, and the client's `UserID`, `Username`, `Score`,
`Level` and `Platform` unchanged (`Level` and `Platform` are not looked at).  The
repository afterwards is the one that call returns, the status is 201 exactly when the
call returns no error, and when the write succeeds the store has gained one document,
which maps back to that entry. -/
theorem handleSubmitScore_stamps_entry (repo : Repository) (now : Int)
    (backend : Except String String) (r : Request) (entry : ScoreEntry)
    (hpost : r.Method = "POST") (hdec : r.Decoded = some entry)
    (hvalid : ¬ (entry.Score < 0 ∨ entry.Username = "")) :
    (handleSubmitScore repo now backend r).addScoreCalls
      = [{ UserID := entry.UserID, Username := entry.Username, Score := entry.Score,
           Level := entry.Level, Timestamp := now, Platform := entry.Platform }] ∧
    (handleSubmitScore repo now backend r).repo
      = (repo.AddScore backend
          { UserID := entry.UserID, Username := entry.Username, Score := entry.Score,
            Level := entry.Level, Timestamp := now, Platform := entry.Platform }).1 ∧
    ((handleSubmitScore repo now backend r).response.StatusCode = 201
      ↔ (repo.AddScore backend
          { UserID := entry.UserID, Username := entry.Username, Score := entry.Score,
            Level := entry.Level, Timestamp := now, Platform := entry.Platform }).2 = none) ∧
    (∀ id, backend = .ok id →
      (handleSubmitScore repo now backend r).repo.scores
        = repo.scores ++
          [{ ID := id,
             fields := entryFields
               { UserID := entry.UserID, Username := entry.Username, Score := entry.Score,
                 Level := entry.Level, Timestamp := now, Platform := entry.Platform } }] ∧
      DocumentSnapshot.DataTo
          { ID := id,
            fields := entryFields
              { UserID := entry.UserID, Username := entry.Username, Score := entry.Score,
                Level := entry.Level, Timestamp := now, Platform := entry.Platform } }
        = some { UserID := entry.UserID, Username := entry.Username, Score := entry.Score,
                 Level := entry.Level, Timestamp := now, Platform := entry.Platform }) := by
  rw [handleSubmitScore_valid repo now backend r entry hpost hdec hvalid]
  cases backend with
  | error err =>
    refine ⟨rfl, rfl, ?_, ?_⟩
    · simp [Repository.AddScore]
    · intro id h
      cases h
  | ok id =>
    refine ⟨rfl, rfl, ?_, ?_⟩
    · simp [Repository.AddScore]
    · intro id' h
      cases h
      exact ⟨rfl, rfl⟩

/-- Witness of C3: a negative level and an unknown platform are passed through, the client's
timestamp is replaced, and the store gains the document of the stamped entry. -/
theorem handleSubmitScore_stamps_entry_witness :
    (handleSubmitScore bobStore 1000 (.ok "aa")
        ⟨"POST", some { ada with Level := -4, Platform := "??", Timestamp := 7 }⟩).addScoreCalls
      = [{ UserID := "u-ada", Username := "Ada", Score := 120, Level := -4, Timestamp := 1000,
           Platform := "??" }] ∧
    (handleSubmitScore bobStore 1000 (.ok "aa")
        ⟨"POST", some { ada with Level := -4, Platform := "??", Timestamp := 7 }⟩).repo.scores
      = [{ ID := "zz", fields := entryFields bob },
         { ID := "aa",
           fields := entryFields
             { UserID := "u-ada", Username := "Ada", Score := 120, Level := -4,
               Timestamp := 1000, Platform := "??" } }] :=
  have h := handleSubmitScore_stamps_entry bobStore 1000 (.ok "aa")
    ⟨"POST", some { ada with Level := -4, Platform := "??", Timestamp := 7 }⟩
    { ada with Level := -4, Platform := "??", Timestamp := 7 } rfl rfl (by decide)
  ⟨h.1, (h.2.2.2 "aa" rfl).1⟩

/-- C8, counterexample: the POST body `{"username":"Ada","score":9223372036854775808}` is
well-formed JSON, its username is not empty and its score is not negative, yet the status
is 400: the score does not fit an `int`, decoding fails, and the handler answers
"Invalid JSON" before it validates anything. -/
theorem handleSubmitScore_status_counterexample :
    bigScoreBody.wellFormed = true ∧
    bigScoreBody = .object [("username", .str "Ada"), ("score", .int 9223372036854775808)] ∧
    ¬ ((9223372036854775808 : Int) < 0 ∨ "Ada" = "") ∧
    JSON.Decode noTime bigScoreBody = none ∧
    (handleSubmitScore bobStore 1000 (.ok "aa")
        ⟨"POST", JSON.Decode noTime bigScoreBody⟩).response = ⟨400, "Invalid JSON\n"⟩ ∧
    (handleSubmitScore bobStore 1000 (.ok "aa")
        ⟨"POST", JSON.Decode noTime bigScoreBody⟩).addScoreCalls = [] := by
  decide

/-- C8, amended: on a POST request the status is 400 exactly when the body does not decode
into an entry (which a well-formed JSON body may fail to do) or the decoded entry fails
validation (negative score or empty username); otherwise it is 500 exactly when
`Repository.AddScore` returns an error; otherwise it is 201.  The status is 201 exactly
when one call to `AddScore` was made and that call returned no error and the repository
the handler leaves; whenever the entry passes validation, the one call is made with the
stamped entry and the repository afterwards is the one the call returns. -/
theorem handleSubmitScore_status (repo : Repository) (now : Int)
    (backend : Except String String) (r : Request) (hpost : r.Method = "POST") :
    ((handleSubmitScore repo now backend r).response.StatusCode = 400
      ↔ r.Decoded = none ∨
        ∃ entry, r.Decoded = some entry ∧ (entry.Score < 0 ∨ entry.Username = "")) ∧
    ((handleSubmitScore repo now backend r).response.StatusCode = 500
      ↔ ∃ entry, r.Decoded = some entry ∧ ¬ (entry.Score < 0 ∨ entry.Username = "") ∧
          (repo.AddScore backend { entry with Timestamp := now }).2 ≠ none) ∧
    ((handleSubmitScore repo now backend r).response.StatusCode = 201
      ↔ ∃ entry, r.Decoded = some entry ∧ ¬ (entry.Score < 0 ∨ entry.Username = "") ∧
          (repo.AddScore backend { entry with Timestamp := now }).2 = none) ∧
    ((handleSubmitScore repo now backend r).response.StatusCode = 201
      ↔ ∃ e, (handleSubmitScore repo now backend r).addScoreCalls = [e] ∧
          repo.AddScore backend e = ((handleSubmitScore repo now backend r).repo, none)) ∧
    (∀ entry, r.Decoded = some entry → ¬ (entry.Score < 0 ∨ entry.Username = "") →
      (handleSubmitScore repo now backend r).addScoreCalls = [{ entry with Timestamp := now }] ∧
      (handleSubmitScore repo now backend r).repo
        = (repo.AddScore backend { entry with Timestamp := now }).1) := by
  cases hdec : r.Decoded with
  | none =>
    have hout : handleSubmitScore repo now backend r
        = ⟨⟨400, "Invalid JSON\n"⟩, repo, []⟩ := by
      simp [handleSubmitScore, hpost, hdec]
    rw [hout]
    simp
  | some entry =>
    by_cases hbad : entry.Score < 0 ∨ entry.Username = ""
    · have hout : handleSubmitScore repo now backend r
          = ⟨⟨400, "Invalid data\n"⟩, repo, []⟩ := by
        simp [handleSubmitScore, hpost, hdec, hbad]
      rw [hout]
      refine ⟨⟨fun _ => Or.inr ⟨entry, rfl, hbad⟩, fun _ => rfl⟩, ?_, ?_, ?_, ?_⟩
      · refine ⟨fun h => by simp at h, ?_⟩
        rintro ⟨e, he, hv, _⟩
        cases he
        exact absurd hbad hv
      · refine ⟨fun h => by simp at h, ?_⟩
        rintro ⟨e, he, hv, _⟩
        cases he
        exact absurd hbad hv
      · refine ⟨fun h => by simp at h, ?_⟩
        rintro ⟨e, he, _⟩
        cases he
      · intro e he hv
        cases he
        exact absurd hbad hv
    · rw [handleSubmitScore_valid repo now backend r entry hpost hdec hbad]
      cases backend with
      | error err =>
        refine ⟨⟨fun h => by simp at h, ?_⟩, ⟨fun _ => ⟨entry, rfl, hbad, ?_⟩, fun _ => rfl⟩,
          ⟨fun h => by simp at h, ?_⟩, ⟨fun h => by simp at h, ?_⟩, ?_⟩
        · rintro (h | ⟨e, he, hv⟩)
          · cases h
          · cases he
            exact absurd hv hbad
        · simp [Repository.AddScore]
        · rintro ⟨e, he, _, h⟩
          simp [Repository.AddScore] at h
        · rintro ⟨e, _, h⟩
          simp [Repository.AddScore] at h
        · intro e he _
          cases he
          exact ⟨rfl, rfl⟩
      | ok id =>
        refine ⟨⟨fun h => by simp at h, ?_⟩, ⟨fun h => by simp at h, ?_⟩,
          ⟨fun _ => ⟨entry, rfl, hbad, rfl⟩, fun _ => rfl⟩,
          ⟨fun _ => ⟨{ entry with Timestamp := now }, rfl, rfl⟩, fun _ => rfl⟩, ?_⟩
        · rintro (h | ⟨e, he, hv⟩)
          · cases h
          · cases he
            exact absurd hv hbad
        · rintro ⟨e, he, _, h⟩
          exact (h rfl).elim
        · intro e he _
          cases he
          exact ⟨rfl, rfl⟩

/-- Witness of C8 (amended): the body of the end-to-end scenario decodes, passes validation
and is written: status 201 and one more document in the store; the same submission with
a failing write is answered with 500. -/
theorem handleSubmitScore_status_witness :
    JSON.Decode noTime adaBody = some { ada with Timestamp := 0 } ∧
    (handleSubmitScore bobStore 1000 (.ok "aa")
        ⟨"POST", JSON.Decode noTime adaBody⟩).response.StatusCode = 201 ∧
    (handleSubmitScore bobStore 1000 (.ok "aa")
        ⟨"POST", JSON.Decode noTime adaBody⟩).repo
      = (bobStore.AddScore (.ok "aa") { ada with Timestamp := 1000 }).1 ∧
    (handleSubmitScore bobStore 1000 (.error "unavailable")
        ⟨"POST", some ada⟩).response.StatusCode = 500 :=
  have h := handleSubmitScore_status bobStore 1000 (.ok "aa")
    ⟨"POST", JSON.Decode noTime adaBody⟩ rfl
  have h' := handleSubmitScore_status bobStore 1000 (.error "unavailable")
    ⟨"POST", some ada⟩ rfl
  ⟨by decide,
   h.2.2.1.mpr ⟨{ ada with Timestamp := 0 }, by decide, by decide, by decide⟩,
   (h.2.2.2.2 { ada with Timestamp := 0 } (by decide) (by decide)).2,
   h'.2.1.mpr ⟨ada, rfl, by decide, by decide⟩⟩

/-- C9, counterexample: the submission with an empty username and the submission with a
negative score have the same outcome; nothing in it tells which rule failed. -/
theorem handleSubmitScore_kinds_counterexample :
    handleSubmitScore bobStore 1000 (.ok "aa")
        ⟨"POST", some { ada with Username := "", Score := 50 }⟩
      = handleSubmitScore bobStore 1000 (.ok "aa") ⟨"POST", some { ada with Score := -1 }⟩ ∧
    ¬ ((handleSubmitScore bobStore 1000 (.ok "aa")
        ⟨"POST", some { ada with Username := "", Score := 50 }⟩).response
      ≠ (handleSubmitScore bobStore 1000 (.ok "aa")
        ⟨"POST", some { ada with Score := -1 }⟩).response) := by
  decide

/-- C9, amended: validation is one test; every submission with an empty username or a
negative score is rejected with the same response, status 400 and text "Invalid data",
and the same (unchanged) state, so two rejected submissions have equal outcomes. -/
theorem handleSubmitScore_rejections_equal (repo : Repository) (now : Int)
    (backend : Except String String) (e₁ e₂ : ScoreEntry)
    (h₁ : e₁.Score < 0 ∨ e₁.Username = "") (h₂ : e₂.Score < 0 ∨ e₂.Username = "") :
    (handleSubmitScore repo now backend ⟨"POST", some e₁⟩).response
      = ⟨400, "Invalid data\n"⟩ ∧
    handleSubmitScore repo now backend ⟨"POST", some e₁⟩
      = handleSubmitScore repo now backend ⟨"POST", some e₂⟩ := by
  simp [handleSubmitScore, h₁, h₂]

/-- Witness of C9 (amended): an empty username with a negative score, and a negative score
alone. -/
theorem handleSubmitScore_rejections_equal_witness :
    (handleSubmitScore bobStore 1000 (.ok "aa")
        ⟨"POST", some { ada with Username := "", Score := -3 }⟩).response
      = ⟨400, "Invalid data\n"⟩ ∧
    handleSubmitScore bobStore 1000 (.ok "aa")
        ⟨"POST", some { ada with Username := "", Score := -3 }⟩
      = handleSubmitScore bobStore 1000 (.ok "aa") ⟨"POST", some { ada with Score := -1 }⟩ :=
  handleSubmitScore_rejections_equal bobStore 1000 (.ok "aa")
    { ada with Username := "", Score := -3 } { ada with Score := -1 }
    (Or.inl (by decide)) (Or.inl (by decide))

/-! ## Submission followed by a query -/

/-- An element that no other element of the list may precede is first after sorting. -/
theorem insertionSort_head {α : Type} (rel : α → α → Prop) [DecidableRel rel]
    [IsTotal α rel] [IsTrans α rel] (l : List α) (x : α) (hx : x ∈ l)
    (hdom : ∀ y ∈ l, y = x ∨ ¬ rel y x) :
    ∃ t, l.insertionSort rel = x :: t := by
  have hperm := List.perm_insertionSort rel l
  have hsorted := List.sorted_insertionSort rel l
  cases hs : l.insertionSort rel with
  | nil =>
    rw [hs] at hperm
    rw [List.Perm.eq_nil hperm.symm] at hx
    cases hx
  | cons a t =>
    rw [hs] at hperm hsorted
    have ha : a ∈ l := hperm.subset (List.mem_cons_self a t)
    have hx' : x ∈ a :: t := hperm.symm.subset hx
    rcases hdom a ha with h | h
    · exact ⟨t, by rw [h]⟩
    · rcases List.mem_cons.mp hx' with h' | h'
      · exact ⟨t, by rw [h']⟩
      · exact absurd (List.rel_of_sorted_cons hsorted x h') h

/-- A query for one entry selects the document just written when every other document with
a score field holds a lower integer score. -/
theorem orderByDescLimit_new_top (docs : List DocumentSnapshot) (id : String) (e : ScoreEntry)
    (hlower : ∀ d ∈ docs, ∀ v, d.fields.lookup "score" = some v →
      ∃ n, v = .int n ∧ n < e.Score) :
    orderByDescLimit (docs ++ [{ ID := id, fields := entryFields e }]) "score" 1
      = [{ ID := id, fields := entryFields e }] := by
  have hkeys : (docs ++ [({ ID := id, fields := entryFields e } : DocumentSnapshot)]).filterMap
        (orderKey "score")
      = docs.filterMap (orderKey "score")
        ++ [(.int e.Score, ({ ID := id, fields := entryFields e } : DocumentSnapshot))] := by
    rw [List.filterMap_append]
    rfl
  obtain ⟨t, ht⟩ := insertionSort_head (fun x y => descBefore x y = true)
    (docs.filterMap (orderKey "score")
      ++ [(.int e.Score, ({ ID := id, fields := entryFields e } : DocumentSnapshot))])
    (.int e.Score, ({ ID := id, fields := entryFields e } : DocumentSnapshot)) (by simp) (by
      intro y hy
      rcases List.mem_append.mp hy with h | h
      · right
        rw [List.mem_filterMap] at h
        obtain ⟨d, hd, hk⟩ := h
        unfold orderKey at hk
        cases hl : d.fields.lookup "score" with
        | none => rw [hl] at hk; cases hk
        | some v =>
          rw [hl] at hk
          simp only [Option.map_some', Option.some.injEq] at hk
          subst hk
          obtain ⟨n, rfl, hn⟩ := hlower d hd v hl
          simp only [descBefore, Value.le, Value.typeOrder, Value.num, Value.exp, Value.text,
            lexLE, pow_zero, mul_one, Bool.or_eq_true, Bool.and_eq_true, Bool.not_eq_true',
            decide_eq_true_eq, decide_eq_false_iff_not, lt_self_iff_false, decide_False,
            decide_True, Bool.false_or, Bool.true_and, Bool.and_true, Bool.not_eq_false,
            Bool.or_eq_false_iff, Bool.and_eq_false_imp]
          omega
      · left
        simpa using h)
  unfold orderByDescLimit
  rw [hkeys, ht]
  rfl

/-- C7, counterexample: the store holds a record of `bob` with score 120; `ada` submits
score 120 successfully; no record has a higher score; the query for one entry returns
the record of `bob`, not the entry submitted. -/
theorem submit_then_top_counterexample :
    (handleSubmitScore bobStore 1000 (.ok "aa") ⟨"POST", some ada⟩).response.StatusCode = 201 ∧
    (handleSubmitScore bobStore 1000 (.ok "aa") ⟨"POST", some ada⟩).repo.scores.map
        DocumentSnapshot.DataTo = [some bob, some { ada with Timestamp := 1000 }] ∧
    bob.Score ≤ ada.Score ∧
    (handleSubmitScore bobStore 1000 (.ok "aa") ⟨"POST", some ada⟩).repo.GetLeaderboard none 1
      = ([bob], none) ∧
    ¬ ((handleSubmitScore bobStore 1000 (.ok "aa") ⟨"POST", some ada⟩).repo.GetLeaderboard none 1
      = ([{ ada with Timestamp := 1000 }], none)) := by
  decide

/-- C7, amended: after a successful submission of an entry, if every other document of the
store that has a score field holds an integer score strictly lower than the entry's, then
`GetLeaderboard(ctx, 1)` (its iterator not failing) returns the one-element list holding
the entry as it was stored, that is with the server's timestamp. -/
theorem submit_then_top (repo : Repository) (now : Int) (backend : Except String String)
    (r : Request) (entry : ScoreEntry) (hdec : r.Decoded = some entry)
    (hsucc : (handleSubmitScore repo now backend r).response.StatusCode = 201)
    (hlower : ∀ d ∈ repo.scores, ∀ v, d.fields.lookup "score" = some v →
      ∃ n, v = .int n ∧ n < entry.Score) :
    (handleSubmitScore repo now backend r).repo.GetLeaderboard none 1
      = ([{ entry with Timestamp := now }], none) := by
  by_cases hpost : r.Method = "POST"
  · by_cases hbad : entry.Score < 0 ∨ entry.Username = ""
    · simp [handleSubmitScore, hpost, hdec, hbad] at hsucc
    · rw [handleSubmitScore_valid repo now backend r entry hpost hdec hbad] at hsucc ⊢
      cases backend with
      | error err => simp at hsucc
      | ok id =>
        show Repository.GetLeaderboard
          { scores := repo.scores ++
              [{ ID := id, fields := entryFields { entry with Timestamp := now } }] } none 1 = _
        rw [GetLeaderboard_done]
        show ((orderByDescLimit (repo.scores ++
              [{ ID := id, fields := entryFields { entry with Timestamp := now } }])
            "score" 1).filterMap DocumentSnapshot.DataTo, none) = _
        rw [orderByDescLimit_new_top repo.scores id { entry with Timestamp := now } hlower]
        rfl
  · simp [handleSubmitScore, hpost] at hsucc

/-- Witness of C7 (amended): `ada` submits 120 to a store whose only record has score 90. -/
theorem submit_then_top_witness :
    (handleSubmitScore cydStore 1000 (.ok "aa") ⟨"POST", some ada⟩).response.StatusCode = 201 ∧
    (handleSubmitScore cydStore 1000 (.ok "aa") ⟨"POST", some ada⟩).repo.GetLeaderboard none 1
      = ([{ ada with Timestamp := 1000 }], none) :=
  ⟨by decide,
   submit_then_top cydStore 1000 (.ok "aa") ⟨"POST", some ada⟩ ada rfl (by decide) (by
     intro d hd v hv
     have hd' : d = { ID := "c1", fields := entryFields cyd } := by simpa [cydStore] using hd
     subst hd'
     have hv' : v = .int 90 := by
       have : ({ ID := "c1", fields := entryFields cyd } : DocumentSnapshot).fields.lookup "score"
           = some (.int 90) := by decide
       rw [this] at hv
       exact (Option.some.inj hv).symm
     exact ⟨90, hv', by decide⟩)⟩

end DriftMiner
